import Mathlib

/-!
Verification development for the Cebularz UTXO blockchain node.

The definitions below are a shallow embedding of the TypeScript sources:
`src/transactions/transaction.ts`, `src/transactions/coinbase.ts`,
`src/node/blockchain.ts` and `src/node/node.ts`.  JavaScript numbers that
only ever hold integers (amounts, indices, heights, timestamps, nonces,
difficulties) are modelled as `Int`; JavaScript strings as `String`;
`undefined`-producing lookups as `Option`; functions that can `throw` as
`Except String`.  The SHA-256 and Ed25519 primitives the code obtains from
the Node `crypto` module are parameters of the embedding (`CryptoOracle`):
every property below is a control-flow property that does not depend on the
concrete hash or signature functions, and counterexamples instantiate the
oracle with explicit computable functions.
-/

namespace Cebularz

/-- Abstract interface to the Node `crypto` calls made by the sources:
`createHash('sha256').update(s).digest('hex')`, `createPublicKey` /
`createPrivateKey` (which throw on strings that are not key material — the
parsed key object is identified with its PEM string), `sign(null, msg,
key)` (base64 result) and `verify(null, msg, pub, sig)`.  Message arguments
are byte lists so that the difference between the UTF-8 bytes of a hex
string and its hex-decoded bytes is observable. -/
structure CryptoOracle where
  hashHex : String → String
  createPublicKey : String → Except String Unit
  createPrivateKey : String → Except String Unit
  edSignBytes : List Nat → String → String
  edVerifyBytes : List Nat → String → String → Bool

/-- Bytes produced by `Buffer.from(s)` (UTF-8).  Every string the sources
pass to `Buffer.from` without an encoding argument is an ASCII hex digest,
for which the UTF-8 bytes are exactly the code points. -/
def utf8Bytes (s : String) : List Nat :=
  s.data.map Char.toNat

/-- Value of one hexadecimal digit. -/
def hexDigitVal (c : Char) : Nat :=
  if c.isDigit then c.toNat - 48
  else if 'a' ≤ c ∧ c ≤ 'f' then c.toNat - 87
  else if 'A' ≤ c ∧ c ≤ 'F' then c.toNat - 55
  else 0

/-- Bytes produced by hex-decoding a string two digits at a time
(`Buffer.from(s, 'hex')`). -/
def hexPairs : List Char → List Nat
  | c1 :: c2 :: rest => (16 * hexDigitVal c1 + hexDigitVal c2) :: hexPairs rest
  | _ => []

/-- Hex-decoded bytes of a string. -/
def hexDecode (s : String) : List Nat :=
  hexPairs s.data

/-- Transaction input, `class TxIn` in `transaction.ts`. -/
structure TxIn where
  txOutId : String
  txOutIndex : Int
  signature : String
  publicKey : String
deriving DecidableEq

/-- Transaction output, `class TxOut` in `transaction.ts`. -/
structure TxOut where
  address : String
  amount : Int
deriving DecidableEq

/-- Transaction, `class Transaction` in `transaction.ts`.  The constructor
computes `id` from the inputs and outputs; blocks received over the wire may
carry any `id` field, so the embedding keeps `id` as plain data. -/
structure Transaction where
  id : String
  txIns : List TxIn
  txOuts : List TxOut
deriving DecidableEq

/-- Unspent output, `class UnspentTxOut` in `transaction.ts`. -/
structure UnspentTxOut where
  txOutId : String
  txOutIndex : Int
  address : String
  amount : Int
deriving DecidableEq

/-- Embedding of `generateTransactionId` in `transaction.ts`: SHA-256 of the
concatenation of every input's `txOutId + txOutIndex` followed by every
output's `address + amount`. -/
def generateTransactionId (C : CryptoOracle) (txIns : List TxIn) (txOuts : List TxOut) : String :=
  let txInContent := (txIns.map (fun txIn => txIn.txOutId ++ toString txIn.txOutIndex)).foldl (· ++ ·) ""
  let txOutContent := (txOuts.map (fun txOut => txOut.address ++ toString txOut.amount)).foldl (· ++ ·) ""
  C.hashHex (txInContent ++ txOutContent)

/-- Embedding of `findUnspentTxOut` in `transaction.ts`. -/
def findUnspentTxOut (transactionId : String) (index : Int) (aUnspentTxOuts : List UnspentTxOut) : Option UnspentTxOut :=
  aUnspentTxOuts.find? (fun uTxO => uTxO.txOutId == transactionId && uTxO.txOutIndex == index)

/-- Key string `` `${txOutId}:${txOutIndex}` `` used for consumed-UTXO sets
in `transaction.ts` and `node.ts`. -/
def utxoKey (txOutId : String) (txOutIndex : Int) : String :=
  txOutId ++ ":" ++ toString txOutIndex

/-- Embedding of `updateUnspentTxOuts` in `transaction.ts`: drop every UTXO consumed by
some input of the new transactions, append every output they create. -/
def updateUnspentTxOuts (newTransactions : List Transaction) (current : List UnspentTxOut) : List UnspentTxOut :=
  let consumedKeys := newTransactions.flatMap (fun tx => tx.txIns.map (fun i => utxoKey i.txOutId i.txOutIndex))
  let created := newTransactions.flatMap (fun tx =>
    tx.txOuts.enum.map (fun p => UnspentTxOut.mk tx.id (Int.ofNat p.1) p.2.address p.2.amount))
  (current.filter (fun u => !(consumedKeys.contains (utxoKey u.txOutId u.txOutIndex)))) ++ created

/-- Embedding of `validateTxIn` in `transaction.ts`.  The referenced UTXO is looked up by
`txOutId` alone (`find` on the id only); the existence, owner-address and
signature checks then run against the first UTXO with that id.  After the
address check the source calls `createPublicKey(txIn.publicKey)`, which
throws on non-key material, so the result is `Except`-valued.  The verified
message is `Buffer.from(transaction.id)`, the UTF-8 bytes of the id
(`Buffer.from(txIn.signature, 'base64')` does not throw). -/
def validateTxIn (C : CryptoOracle) (txIn : TxIn) (transaction : Transaction) (aUnspentTxOuts : List UnspentTxOut) : Except String Bool :=
  match aUnspentTxOuts.find? (fun uTxO => uTxO.txOutId == txIn.txOutId) with
  | none => Except.ok false
  | some referencedUTxOut =>
    let derivedAddress := C.hashHex txIn.publicKey
    if derivedAddress != referencedUTxOut.address then Except.ok false
    else do
      let _ ← C.createPublicKey txIn.publicKey
      Except.ok (C.edVerifyBytes (utf8Bytes transaction.id) txIn.publicKey txIn.signature)

/-- Embedding of `getTxInAmount` in `transaction.ts`: throws when the `(txOutId,
txOutIndex)` pair matches no UTXO. -/
def getTxInAmount (txIn : TxIn) (uTxOuts : List UnspentTxOut) : Except String Int :=
  match findUnspentTxOut txIn.txOutId txIn.txOutIndex uTxOuts with
  | none => Except.error "Referenced UTXO not found"
  | some utxo => Except.ok utxo.amount

/-- Embedding of `validateTransaction` in `transaction.ts`.  Returns `Except` because both
the `validateTxIn` calls (via `createPublicKey`) and the `getTxInAmount`
calls in the input-sum computation can throw; the source's `.map` evaluates
left to right and a throw propagates. -/
def validateTransaction (C : CryptoOracle) (transaction : Transaction) (aUnspentTxOuts : List UnspentTxOut) : Except String Bool :=
  if generateTransactionId C transaction.txIns transaction.txOuts != transaction.id then Except.ok false
  else do
    let txInResults ← transaction.txIns.mapM (fun txIn => validateTxIn C txIn transaction aUnspentTxOuts)
    let hasValidTxIns := txInResults.foldl (· && ·) true
    if !hasValidTxIns then Except.ok false
    else do
      let amounts ← transaction.txIns.mapM (fun txIn => getTxInAmount txIn aUnspentTxOuts)
      let totalTxInValues := amounts.foldl (· + ·) 0
      let totalTxOutValues := (transaction.txOuts.map TxOut.amount).foldl (· + ·) 0
      Except.ok (totalTxOutValues == totalTxInValues)

/-- Embedding of `signTxIn` in `transaction.ts`: signs `Buffer.from(transaction.id)`,
the UTF-8 bytes of the id, after resolving the referenced UTXO by the full
`(txOutId, txOutIndex)` pair, checking the owner address, and parsing the
private key with `createPrivateKey` (which throws on non-key material). -/
def signTxIn (C : CryptoOracle) (transaction : Transaction) (txInIndex : Nat) (privateKey : String) (aUnspentTxOuts : List UnspentTxOut) : Except String String :=
  match transaction.txIns[txInIndex]? with
  | none => Except.error ("TxIn not found at index " ++ toString txInIndex)
  | some txIn =>
    match findUnspentTxOut txIn.txOutId txIn.txOutIndex aUnspentTxOuts with
    | none => Except.error "Referenced UTXO not found"
    | some referencedUnspentTxOut =>
      let derivedAddress := C.hashHex txIn.publicKey
      if derivedAddress != referencedUnspentTxOut.address then
        Except.error "Public key does not match UTXO owner"
      else do
        let _ ← C.createPrivateKey privateKey
        Except.ok (C.edSignBytes (utf8Bytes transaction.id) privateKey)

/-- Constant `COINBASE_AMOUNT` in `coinbase.ts`. -/
def COINBASE_AMOUNT : Int := 100

/-- Embedding of `getCoinbaseTransaction` in `coinbase.ts`. -/
def getCoinbaseTransaction (C : CryptoOracle) (address : String) (blockIndex : Int) : Transaction :=
  let txIn : TxIn := ⟨"", blockIndex, "", ""⟩
  let txOut : TxOut := ⟨address, COINBASE_AMOUNT⟩
  { id := generateTransactionId C [txIn] [txOut], txIns := [txIn], txOuts := [txOut] }

/-- Embedding of `validateCoinbaseTx` in `coinbase.ts`: id recomputation, exactly one
input whose `txOutIndex` is the block height, exactly one output of the
coinbase amount.  (`txOutId`, `signature`, `publicKey` are not inspected.) -/
def validateCoinbaseTx (C : CryptoOracle) (transaction : Transaction) (blockIndex : Int) : Bool :=
  if generateTransactionId C transaction.txIns transaction.txOuts != transaction.id then false
  else if transaction.txIns.length != 1 then false
  else if transaction.txIns.head?.map TxIn.txOutIndex != some blockIndex then false
  else if transaction.txOuts.length != 1 then false
  else if transaction.txOuts.head?.map TxOut.amount != some COINBASE_AMOUNT then false
  else true

/-- Grouping key `txIn.txOutId + txIn.txOutIndex` used by `hasDuplicates`
in `transaction.ts` (plain concatenation, no separator). -/
def txInGroupKey (txIn : TxIn) : String :=
  txIn.txOutId ++ toString txIn.txOutIndex

/-- Embedding of `hasDuplicates` in `transaction.ts`: some grouping key occurs more than
once among the inputs. -/
def hasDuplicates (txIns : List TxIn) : Bool :=
  let keys := txIns.map txInGroupKey
  keys.any (fun k => keys.count k > 1)

/-- Embedding of `validateBlockTransactions` in `transaction.ts`: `txs[0]` must be a
valid coinbase for the block height, no `(txOutId, txOutIndex)` group key
may repeat across the whole block, and every remaining transaction must
validate against the snapshot `uTxOs`. -/
def validateBlockTransactions (C : CryptoOracle) (txs : List Transaction) (uTxOs : List UnspentTxOut) (blockIndex : Int) : Except String Bool :=
  match txs.head? with
  | none => Except.ok false
  | some coinbaseTx =>
    if !validateCoinbaseTx C coinbaseTx blockIndex then Except.ok false
    else
      let txIns := txs.flatMap Transaction.txIns
      if hasDuplicates txIns then Except.ok false
      else do
        let results ← (txs.drop 1).mapM (fun tx => validateTransaction C tx uTxOs)
        Except.ok (results.foldl (· && ·) true)

/-- Embedding of `processTransactions` in `transaction.ts`: `none` models the `null`
invalid sentinel; `Except.error` models a propagating exception. -/
def processTransactions (C : CryptoOracle) (txs : List Transaction) (uTxOs : List UnspentTxOut) (blockIndex : Int) : Except String (Option (List UnspentTxOut)) := do
  let v ← validateBlockTransactions C txs uTxOs blockIndex
  if !v then Except.ok none
  else Except.ok (some (updateUnspentTxOuts txs uTxOs))

/-- Block payload data, `interface BlockData` in `blockchain.ts`. -/
structure BlockData where
  miner : String
  transactions : List Transaction
deriving DecidableEq

/-- Block, `interface Block` in `blockchain.ts`. -/
structure Block where
  height : Int
  timestamp : Int
  prevHash : String
  data : BlockData
  nonce : Int
  difficulty : Int
  hash : String
deriving DecidableEq

/-- JSON string literal with the two escapes that can occur in this data
model (quote and backslash); all other characters appearing in ids,
addresses and miner tags are emitted verbatim. -/
def jsonString (s : String) : String :=
  "\"" ++ String.mk (s.data.flatMap (fun c => if c == '\"' || c == '\\' then ['\\', c] else [c])) ++ "\""

/-- JSON serialization of a `TxIn`, field order as declared. -/
def jsonTxIn (i : TxIn) : String :=
  "\x7b\"txOutId\":" ++ jsonString i.txOutId ++ ",\"txOutIndex\":" ++ toString i.txOutIndex
    ++ ",\"signature\":" ++ jsonString i.signature ++ ",\"publicKey\":" ++ jsonString i.publicKey ++ "\x7d"

/-- JSON serialization of a `TxOut`. -/
def jsonTxOut (o : TxOut) : String :=
  "\x7b\"address\":" ++ jsonString o.address ++ ",\"amount\":" ++ toString o.amount ++ "\x7d"

/-- JSON array from already-serialized elements. -/
def jsonArray (elems : List String) : String :=
  "[" ++ String.intercalate "," elems ++ "]"

/-- JSON serialization of a `Transaction`, fields in the insertion order of
the `Transaction` constructor (`txIns`, `txOuts`, `id`). -/
def jsonTransaction (t : Transaction) : String :=
  "\x7b\"txIns\":" ++ jsonArray (t.txIns.map jsonTxIn)
    ++ ",\"txOuts\":" ++ jsonArray (t.txOuts.map jsonTxOut)
    ++ ",\"id\":" ++ jsonString t.id ++ "\x7d"

/-- `JSON.stringify(payload.data)` for the block payload. -/
def jsonBlockData (d : BlockData) : String :=
  "\x7b\"miner\":" ++ jsonString d.miner
    ++ ",\"transactions\":" ++ jsonArray (d.transactions.map jsonTransaction) ++ "\x7d"

/-- Embedding of `hashBlockPayload` in `blockchain.ts`: SHA-256 over the concatenation of
the stringified header fields (`sha256Hex` updates the digest with each part
in order, which hashes their concatenation). -/
def hashBlockPayload (C : CryptoOracle) (height timestamp : Int) (prevHash : String) (data : BlockData) (nonce difficulty : Int) : String :=
  C.hashHex (toString height ++ toString timestamp ++ prevHash ++ jsonBlockData data
    ++ toString nonce ++ toString difficulty)

/-- Recomputed header hash of a block, as `isValidNewBlock` rebuilds it. -/
def recomputedHash (C : CryptoOracle) (b : Block) : String :=
  hashBlockPayload C b.height b.timestamp b.prevHash b.data b.nonce b.difficulty

/-- Embedding of `meetsDifficulty` in `blockchain.ts`; the source's
`hashHex.startsWith('0'.repeat(difficulty))` is modelled as a character-list
prefix test. -/
def meetsDifficulty (hashHex : String) (difficulty : Int) : Bool :=
  if difficulty ≤ 0 then true
  else if difficulty > 64 then false
  else (List.replicate difficulty.toNat '0').isPrefixOf hashHex.data

/-- Embedding of `createGenesisBlock` in `blockchain.ts`. -/
def createGenesisBlock (C : CryptoOracle) : Block :=
  let prevHash := String.mk (List.replicate 64 '0')
  let data : BlockData := { miner := "genesis", transactions := [] }
  { height := 0, timestamp := 0, prevHash := prevHash, data := data, nonce := 0, difficulty := 0,
    hash := hashBlockPayload C 0 0 prevHash data 0 0 }

/-- Result object returned by `isValidNewBlock` and `validateChain`: an
object with `ok: true`, or with `ok: false` and a reason string. -/
inductive ValidationResult where
  | valid : ValidationResult
  | invalid : String → ValidationResult
deriving DecidableEq

/-- Truthiness of the validation result as a JavaScript value.  Both
variants are objects, and every JavaScript object is truthy, so this is
constantly `true` — which is exactly what `processBlock`'s
`if (!basicValidation)` test observes. -/
def ValidationResult.jsTruthy : ValidationResult → Bool := fun _ => true

/-- Embedding of `isValidNewBlock` in `blockchain.ts`.  `now` stands for `Date.now()`;
`expectedDifficulty` is the optional third parameter. -/
def isValidNewBlock (C : CryptoOracle) (now : Int) (block prev : Block) (expectedDifficulty : Option Int) : ValidationResult :=
  if block.height != prev.height + 1 then ValidationResult.invalid "height mismatch"
  else if block.prevHash != prev.hash then ValidationResult.invalid "prevHash mismatch"
  else if (match expectedDifficulty with
           | some d => block.difficulty != d
           | none => false) then ValidationResult.invalid "difficulty mismatch"
  else if recomputedHash C block != block.hash then ValidationResult.invalid "hash mismatch"
  else if !meetsDifficulty block.hash block.difficulty then ValidationResult.invalid "does not meet difficulty"
  else if block.timestamp - now > 60000 then ValidationResult.invalid "timestamp too far in future"
  else if block.timestamp < prev.timestamp then ValidationResult.invalid "timestamp earlier than previous block"
  else ValidationResult.valid

/-- Tail of `validateChain`'s index loop: check each block against its
predecessor. -/
def validateChainRest (C : CryptoOracle) (now : Int) (expectedDifficulty : Option Int) : Block → List Block → ValidationResult
  | _, [] => ValidationResult.valid
  | prev, cur :: rest =>
    match isValidNewBlock C now cur prev expectedDifficulty with
    | ValidationResult.invalid r => ValidationResult.invalid r
    | ValidationResult.valid => validateChainRest C now expectedDifficulty cur rest

/-- Embedding of `validateChain` in `blockchain.ts`.  The source compares the first block
with the hardcoded genesis via `JSON.stringify` equality, modelled as
structural block equality. -/
def validateChain (C : CryptoOracle) (now : Int) (chain : List Block) (expectedDifficulty : Option Int) : ValidationResult :=
  match chain with
  | [] => ValidationResult.invalid "empty chain"
  | first :: rest =>
    if first != createGenesisBlock C then ValidationResult.invalid "invalid genesis"
    else validateChainRest C now expectedDifficulty first rest

/-- Mutable state of a `CebularzNode` relevant to the verified operations:
the canonical chain, the UTXO snapshot and the mempool. -/
structure NodeState where
  chain : List Block
  unspentTxOuts : List UnspentTxOut
  transactionPool : List Transaction
deriving DecidableEq

/-- Embedding of `updateTransactionPool` in `node.ts`: evict exactly the transactions
whose id appears among the mined ones. -/
def updateTransactionPool (minedTxs : List Transaction) (pool : List Transaction) : List Transaction :=
  let minedIds := minedTxs.map Transaction.id
  pool.filter (fun t => !(minedIds.contains t.id))

/-- Embedding of `processBlock` in `node.ts`.  The source stores the result object of
`isValidNewBlock` in `basicValidation` and tests `if (!basicValidation)`;
since the result is an object and objects are truthy, that branch can never
fire, so structural header validation is effectively skipped. -/
def processBlock (C : CryptoOracle) (now : Int) (block prevBlock : Block) (unspentTxOuts : List UnspentTxOut) (difficulty : Int) : Except String (Option (List UnspentTxOut)) :=
  let basicValidation := isValidNewBlock C now block prevBlock (some difficulty)
  if !basicValidation.jsTruthy then Except.ok none
  else do
    let newUTxOs ← processTransactions C block.data.transactions unspentTxOuts block.height
    Except.ok newUTxOs

/-- Embedding of `handleReceivedBlock` in `node.ts`.  On acceptance the block is pushed,
the UTXO snapshot replaced, and mined transaction ids evicted from the pool;
on rejection (or a propagating exception) the state is unchanged. -/
def handleReceivedBlock (C : CryptoOracle) (now : Int) (difficulty : Int) (s : NodeState) (block : Block) : NodeState :=
  match s.chain.getLast? with
  | none => s
  | some latest =>
    if block.height ≤ latest.height then s
    else
      match processBlock C now block latest s.unspentTxOuts difficulty with
      | Except.ok (some newTxOs) =>
        { chain := s.chain ++ [block]
          unspentTxOuts := newTxOs
          transactionPool := updateTransactionPool block.data.transactions s.transactionPool }
      | _ => s

/-- State effect of the `POST /blocks/new` handler in `node.ts` (broadcast
and HTTP response body omitted): old-or-equal heights are ignored, a height
gap returns a `gap` response without storing the block (the asynchronous
`syncFromPeer` it triggers never changes state, see
`syncFromPeer_eq_self`), and otherwise the block goes through
`handleReceivedBlock`. -/
def blocksNewStep (C : CryptoOracle) (now : Int) (difficulty : Int) (s : NodeState) (block : Block) : NodeState :=
  match s.chain.getLast? with
  | none => s
  | some latest =>
    if block.height ≤ latest.height then s
    else if block.height != latest.height + 1 then s
    else handleReceivedBlock C now difficulty s block

/-- Sequential delivery of blocks through the `POST /blocks/new` handler. -/
def ingestAll (C : CryptoOracle) (now : Int) (difficulty : Int) (s : NodeState) (blocks : List Block) : NodeState :=
  blocks.foldl (blocksNewStep C now difficulty) s

/-- Embedding of `addToTransactionPool` in `node.ts`.  Returns the updated state and the
boolean the method returns; `Except.error` models a propagating exception
from `validateTransaction`. -/
def addToTransactionPool (C : CryptoOracle) (s : NodeState) (tx : Transaction) : Except String (NodeState × Bool) := do
  let v ← validateTransaction C tx s.unspentTxOuts
  if !v then Except.ok (s, false)
  else if (s.transactionPool.find? (fun t => t.id == tx.id)).isSome then Except.ok (s, false)
  else
    let usedUTxOs := s.transactionPool.flatMap (fun poolTx => poolTx.txIns.map (fun i => utxoKey i.txOutId i.txOutIndex))
    if tx.txIns.any (fun txIn => usedUTxOs.contains (utxoKey txIn.txOutId txIn.txOutIndex)) then
      Except.ok (s, false)
    else Except.ok ({ s with transactionPool := s.transactionPool ++ [tx] }, true)

/-- Response of `GET /unspent/:address` in `node.ts`: the address's UTXOs
minus those consumed by some mempool transaction. -/
def unspentForAddress (s : NodeState) (address : String) : List UnspentTxOut :=
  let usedInMempool := s.transactionPool.flatMap (fun poolTx => poolTx.txIns.map (fun i => utxoKey i.txOutId i.txOutIndex))
  s.unspentTxOuts.filter (fun u =>
    u.address == address && !(usedInMempool.contains (utxoKey u.txOutId u.txOutIndex)))

/-- Balance in the response of `GET /balance/:address` in `node.ts`: the sum
over all UTXOs of the address, without the mempool filter. -/
def balanceForAddress (s : NodeState) (address : String) : Int :=
  (s.unspentTxOuts.filter (fun u => u.address == address)).foldl (fun a b => a + b.amount) 0

/-- Replay loop inside `syncFromPeer` in `node.ts`: apply every block's
transactions starting from an empty UTXO set; `none` models the early return
on an invalid block, `Except.error` a propagating exception. -/
def replayChain (C : CryptoOracle) : List Block → List UnspentTxOut → Except String (Option (List UnspentTxOut))
  | [], acc => Except.ok (some acc)
  | b :: rest, acc => do
    let r ← processTransactions C b.data.transactions acc b.height
    match r with
    | none => Except.ok none
    | some acc' => replayChain C rest acc'

/-- State effect of `syncFromPeer` in `node.ts`, given the chain fetched
from the peer: validate it, compare by chain length (the FIXME in the source
notes this is length, not accumulated difficulty), replay from an empty UTXO
set, and adopt chain and replayed UTXO set on success.  Thrown exceptions
are caught by the surrounding `try` with no state change. -/
def syncFromPeer (C : CryptoOracle) (now : Int) (difficulty : Int) (s : NodeState) (remote : List Block) : NodeState :=
  match validateChain C now remote (some difficulty) with
  | ValidationResult.invalid _ => s
  | ValidationResult.valid =>
    if remote.length > s.chain.length then
      match replayChain C remote [] with
      | Except.ok (some tempUTxO) => { s with chain := remote, unspentTxOuts := tempUTxO }
      | _ => s
    else s


/-! Concrete instantiations used by the counterexamples and witnesses.  The
claims under check are control-flow properties, so the oracle can be any
computable instantiation of the crypto primitives; where a transaction id
must satisfy the recomputation check, the id field is the oracle's hash of
the serialized content, exactly as the `Transaction` constructor computes
it. -/

/-- Oracle whose hash is the identity and whose verifier always accepts. -/
def idOracle : CryptoOracle :=
  { hashHex := fun s => s
    createPublicKey := fun _ => Except.ok ()
    createPrivateKey := fun _ => Except.ok ()
    edSignBytes := fun _ _ => ""
    edVerifyBytes := fun _ _ _ => true }

/-- Oracle whose verifier accepts exactly the UTF-8 bytes of the hex string
"00" — it distinguishes the ASCII bytes of an id from its hex-decoded
bytes. -/
def asciiVerifyOracle : CryptoOracle :=
  { hashHex := fun s => s
    createPublicKey := fun _ => Except.ok ()
    createPrivateKey := fun _ => Except.ok ()
    edSignBytes := fun _ _ => ""
    edVerifyBytes := fun msg _ _ => msg == utf8Bytes "00" }

/-- Oracle whose key parser accepts only the string "pk": any other
`publicKey` models non-key material on which `createPublicKey` throws. -/
def strictKeyOracle : CryptoOracle :=
  { hashHex := fun s => s
    createPublicKey := fun k => if k == "pk" then Except.ok () else Except.error "not a key"
    createPrivateKey := fun _ => Except.ok ()
    edSignBytes := fun _ _ => ""
    edVerifyBytes := fun _ _ _ => true }

/-- Node state holding only the genesis block, an empty UTXO set and an
empty mempool (the state right after `initializeChain`). -/
def genesisOnlyState : NodeState :=
  { chain := [createGenesisBlock idOracle], unspentTxOuts := [], transactionPool := [] }

/-- Block of height 1 whose transactions are a well-formed coinbase but
whose stored `hash` field is `"zzzz"`: the recomputed header hash differs
from it and `meetsDifficulty "zzzz" 2` fails. -/
def badHeaderBlock : Block :=
  { height := 1, timestamp := 0, prevHash := (createGenesisBlock idOracle).hash,
    data := { miner := "m", transactions := [getCoinbaseTransaction idOracle "m" 1] },
    nonce := 0, difficulty := 2, hash := "zzzz" }

/-- Pending transaction spending the UTXO `("t0", 0)`; its id is the
identity-hash of its serialized content. -/
def poolSpendTx : Transaction :=
  { id := "t00b100", txIns := [⟨"t0", 0, "s1", "pk"⟩], txOuts := [⟨"b", 100⟩] }

/-- Competing transaction with a different id spending the same UTXO
`("t0", 0)`. -/
def blockSpendTx : Transaction :=
  { id := "t00c100", txIns := [⟨"t0", 0, "s2", "pk"⟩], txOuts := [⟨"c", 100⟩] }

/-- Block of height 1 carrying a coinbase and `blockSpendTx`. -/
def doubleSpendBlock : Block :=
  { height := 1, timestamp := 0, prevHash := "x",
    data := { miner := "m", transactions := [getCoinbaseTransaction idOracle "m" 1, blockSpendTx] },
    nonce := 0, difficulty := 0, hash := "hB" }

/-- Node state whose mempool holds `poolSpendTx`, valid against the single
UTXO `("t0", 0)`. -/
def spendState : NodeState :=
  { chain := [createGenesisBlock idOracle],
    unspentTxOuts := [⟨"t0", 0, "pk", 100⟩],
    transactionPool := [poolSpendTx] }

/-- Node state in which the mempool consumes the only UTXO owned by
address "A". -/
def pendingPoolState : NodeState :=
  { chain := [], unspentTxOuts := [⟨"t", 0, "A", 100⟩],
    transactionPool := [{ id := "x", txIns := [⟨"t", 0, "", ""⟩], txOuts := [] }] }

/-- Child block of the given height whose only transaction is a coinbase
for that height (header fields otherwise arbitrary). -/
def childBlock (h : Int) (hs : String) : Block :=
  { height := h, timestamp := 0, prevHash := "p",
    data := { miner := "m", transactions := [getCoinbaseTransaction idOracle "m" h] },
    nonce := 0, difficulty := 0, hash := hs }

/-- Disjointness of the consumed-UTXO key sets of two transactions. -/
def txInsDisjoint (a b : Transaction) : Prop :=
  ∀ i ∈ a.txIns, ∀ j ∈ b.txIns,
    utxoKey i.txOutId i.txOutIndex ≠ utxoKey j.txOutId j.txOutIndex

/-- Mempool invariant of the spec: every pool transaction validates against
the current UTXO snapshot and the pool is pairwise disjoint in the UTXOs it
consumes. -/
def poolInvariant (C : CryptoOracle) (s : NodeState) : Prop :=
  (∀ t ∈ s.transactionPool, validateTransaction C t s.unspentTxOuts = Except.ok true) ∧
  s.transactionPool.Pairwise txInsDisjoint

/-- Transaction accepted by `validateCoinbaseTx` at height 5 although its
input has a non-empty `txOutId`, signature and public key. -/
def nonstandardCoinbase : Transaction :=
  { id := "x5a100", txIns := [⟨"x", 5, "sg", "pk"⟩], txOuts := [⟨"a", 100⟩] }

/-- Transaction whose single input's `(txOutId, txOutIndex)` pair resolves
and whose conservation holds, but whose `publicKey` is the non-key string
"badkey" — its identity-hash happens to equal the referenced UTXO's
address, so `validateTxIn` reaches `createPublicKey` and throws under
`strictKeyOracle`. -/
def badKeyTx : Transaction :=
  { id := "t10b5", txIns := [⟨"t1", 0, "s", "badkey"⟩], txOuts := [⟨"b", 5⟩] }

/-- Height-1 child of the genesis block: `prevHash` is the genesis hash and
the only transaction is a valid coinbase for height 1. -/
def linkedB1 : Block :=
  { height := 1, timestamp := 0, prevHash := (createGenesisBlock idOracle).hash,
    data := { miner := "m", transactions := [getCoinbaseTransaction idOracle "m" 1] },
    nonce := 0, difficulty := 0, hash := "h1" }

/-- Height-2 child of `linkedB1` (`prevHash = linkedB1.hash`). -/
def linkedB2 : Block :=
  { height := 2, timestamp := 0, prevHash := "h1",
    data := { miner := "m", transactions := [getCoinbaseTransaction idOracle "m" 2] },
    nonce := 0, difficulty := 0, hash := "h2" }

/-- Height-3 child of `linkedB2` (`prevHash = linkedB2.hash`). -/
def linkedB3 : Block :=
  { height := 3, timestamp := 0, prevHash := "h2",
    data := { miner := "m", transactions := [getCoinbaseTransaction idOracle "m" 3] },
    nonce := 0, difficulty := 0, hash := "h3" }

deriving instance DecidableEq for Except

/-! Helper lemmas shared by the claim theorems. -/

/-- Applying an empty transaction list at height 0 hits the coinbase check
(`txs[0]` is `undefined`), so `processTransactions` returns the invalid
sentinel `null` rather than the untouched UTXO set. -/
lemma processTransactions_nil_zero (C : CryptoOracle) (u : List UnspentTxOut) :
    processTransactions C [] u 0 = Except.ok none := rfl

/-- Replaying any chain that starts with the hardcoded genesis block fails
immediately: the genesis block's empty transaction list makes
`processTransactions` return the sentinel at index 0. -/
lemma replayChain_genesis (C : CryptoOracle) (rest : List Block) :
    replayChain C (createGenesisBlock C :: rest) [] = Except.ok none := rfl

/-- The full-chain sync never changes the node state: a remote chain either
fails `validateChain` (so the exception path leaves the state alone), or
starts with the genesis block, whose replay fails at index 0. -/
lemma syncFromPeer_eq_self (C : CryptoOracle) (now difficulty : Int) (s : NodeState) (remote : List Block) :
    syncFromPeer C now difficulty s remote = s := by
  unfold syncFromPeer validateChain
  cases remote with
  | nil => rfl
  | cons first rest =>
    by_cases h : first = createGenesisBlock C
    · subst h
      simp only [bne_self_eq_false, Bool.false_eq_true, if_false]
      cases validateChainRest C now (some difficulty) (createGenesisBlock C) rest with
      | invalid r => rfl
      | valid =>
        rw [replayChain_genesis]
        simp
    · have hb : (first != createGenesisBlock C) = true := by simp [bne_iff_ne, h]
      simp [hb]

/-- Mapping `getTxInAmount` over inputs whose `(txOutId, txOutIndex)` pairs
all resolve produces a value, never an exception. -/
lemma mapM_getTxInAmount_ok (u : List UnspentTxOut) :
    ∀ (l : List TxIn), (∀ i ∈ l, (findUnspentTxOut i.txOutId i.txOutIndex u).isSome) →
      ∃ amounts, l.mapM (fun txIn => getTxInAmount txIn u) = Except.ok amounts := by
  intro l
  induction l with
  | nil => intro _; exact ⟨[], rfl⟩
  | cons i l ih =>
    intro h
    have hi := h i (List.mem_cons_self i l)
    obtain ⟨r, hr⟩ := Option.isSome_iff_exists.mp hi
    obtain ⟨amounts, ha⟩ := ih (fun j hj => h j (List.mem_cons_of_mem i hj))
    refine ⟨r.amount :: amounts, ?_⟩
    rw [List.mapM_cons, ha]
    simp only [getTxInAmount, hr]
    rfl

/-- When the input's `publicKey` parses as a key, `validateTxIn` returns a
boolean — its only throw path is `createPublicKey`. -/
lemma validateTxIn_ok_of_key (C : CryptoOracle) (txIn : TxIn) (tx : Transaction)
    (u : List UnspentTxOut) (hk : C.createPublicKey txIn.publicKey = Except.ok ()) :
    ∃ b, validateTxIn C txIn tx u = Except.ok b := by
  unfold validateTxIn
  cases hf : u.find? (fun x => x.txOutId == txIn.txOutId) with
  | none => exact ⟨false, rfl⟩
  | some r =>
    dsimp only
    by_cases ha : (C.hashHex txIn.publicKey != r.address) = true
    · rw [if_pos ha]; exact ⟨false, rfl⟩
    · rw [if_neg ha]
      refine ⟨C.edVerifyBytes (utf8Bytes tx.id) txIn.publicKey txIn.signature, ?_⟩
      rw [hk]
      rfl

/-- Mapping `validateTxIn` over inputs whose public keys all parse produces
a value, never an exception. -/
lemma mapM_validateTxIn_ok (C : CryptoOracle) (tx : Transaction) (u : List UnspentTxOut) :
    ∀ (l : List TxIn), (∀ i ∈ l, C.createPublicKey i.publicKey = Except.ok ()) →
      ∃ results, l.mapM (fun txIn => validateTxIn C txIn tx u) = Except.ok results := by
  intro l
  induction l with
  | nil => intro _; exact ⟨[], rfl⟩
  | cons i l ih =>
    intro h
    obtain ⟨b, hb⟩ := validateTxIn_ok_of_key C i tx u (h i (List.mem_cons_self i l))
    obtain ⟨results, hres⟩ := ih (fun j hj => h j (List.mem_cons_of_mem i hj))
    refine ⟨b :: results, ?_⟩
    rw [List.mapM_cons, hb, hres]
    rfl


/-! Claim theorems. -/

/-- C1: the block-ingest path is meant to reject a non-genesis block whose
recomputed header hash differs from its stored `hash` or which fails
`meetsDifficulty`.  It does not: `processBlock` tests the truthiness of the
result object of `isValidNewBlock` instead of its `ok` field, so
`badHeaderBlock` — explicitly rejected by `isValidNewBlock` with reason
"hash mismatch", with a hash that also fails the difficulty test — is
accepted and stored on the canonical chain by `handleReceivedBlock`. -/
theorem processBlock_accepts_invalid_header :
    isValidNewBlock idOracle 0 badHeaderBlock (createGenesisBlock idOracle) (some 2)
      = ValidationResult.invalid "hash mismatch" ∧
    meetsDifficulty badHeaderBlock.hash badHeaderBlock.difficulty = false ∧
    recomputedHash idOracle badHeaderBlock ≠ badHeaderBlock.hash ∧
    (handleReceivedBlock idOracle 0 2 genesisOnlyState badHeaderBlock).chain
      = [createGenesisBlock idOracle, badHeaderBlock] := by decide

/-- C2: applying an empty transaction list at block height 0 does not return
the UTXO set unchanged — `processTransactions` returns the invalid sentinel
(`none`, the source's `null`), because `validateBlockTransactions` requires
`txs[0]` to be a valid coinbase even at height 0.  Consequently the
full-chain replay performed during sync fails at the genesis block of every
chain. -/
theorem processTransactions_height_zero_returns_sentinel (C : CryptoOracle)
    (u : List UnspentTxOut) (rest : List Block) :
    processTransactions C [] u 0 = Except.ok none ∧
    replayChain C (createGenesisBlock C :: rest) [] = Except.ok none :=
  ⟨processTransactions_nil_zero C u, replayChain_genesis C rest⟩

/-- C3 (counterexample): `validateTransaction` can raise an exception on
peer-supplied data, in two ways.  For an input whose `txOutId` matches a
UTXO (so the signature check passes against that UTXO) but whose
`(txOutId, txOutIndex)` pair matches none, the amount lookup
`getTxInAmount` throws "Referenced UTXO not found"; and for an input whose
`publicKey` is non-key material whose hash equals the referenced UTXO's
address, `createPublicKey` throws inside `validateTxIn` — even though every
`(txOutId, txOutIndex)` pair of that transaction resolves. -/
theorem validateTransaction_throw_counterexample :
    validateTransaction idOracle
      { id := "t11b5", txIns := [⟨"t1", 1, "s", "pk"⟩], txOuts := [⟨"b", 5⟩] }
      [⟨"t1", 0, "pk", 5⟩] = Except.error "Referenced UTXO not found" ∧
    validateTransaction strictKeyOracle badKeyTx [⟨"t1", 0, "badkey", 5⟩]
      = Except.error "not a key" ∧
    (∀ i ∈ badKeyTx.txIns,
      (findUnspentTxOut i.txOutId i.txOutIndex [⟨"t1", 0, "badkey", 5⟩]).isSome) := by decide

/-- C3 (amended): `validateTransaction` returns a boolean without raising
provided every input's `(txOutId, txOutIndex)` pair resolves to a UTXO and
every input's `publicKey` parses as a key — the two exception paths are
`getTxInAmount` on an input accepted by `validateTxIn`'s id-only lookup
whose full pair is absent, and `createPublicKey` on non-key material that
passes the address check. -/
theorem validateTransaction_returns_bool_when_inputs_resolve (C : CryptoOracle)
    (tx : Transaction) (u : List UnspentTxOut)
    (hpair : ∀ i ∈ tx.txIns, (findUnspentTxOut i.txOutId i.txOutIndex u).isSome)
    (hkey : ∀ i ∈ tx.txIns, C.createPublicKey i.publicKey = Except.ok ()) :
    ∃ b, validateTransaction C tx u = Except.ok b := by
  unfold validateTransaction
  split
  · exact ⟨false, rfl⟩
  · obtain ⟨results, hres⟩ := mapM_validateTxIn_ok C tx u tx.txIns hkey
    rw [hres]
    simp only [Bind.bind, Except.bind]
    split
    · exact ⟨false, rfl⟩
    · obtain ⟨amounts, ha⟩ := mapM_getTxInAmount_ok u tx.txIns hpair
      rw [ha]
      refine ⟨(tx.txOuts.map TxOut.amount).foldl (· + ·) 0 == amounts.foldl (· + ·) 0, ?_⟩
      rfl

/-- C3 (witness): a concrete transaction whose single input resolves and
whose key parses, on which `validateTransaction` returns a boolean. -/
theorem validateTransaction_returns_bool_when_inputs_resolve_witness :
    ∃ b, validateTransaction idOracle
      { id := "t00b7", txIns := [⟨"t0", 0, "s", "pk"⟩], txOuts := [⟨"b", 7⟩] }
      [⟨"t0", 0, "pk", 7⟩] = Except.ok b :=
  validateTransaction_returns_bool_when_inputs_resolve idOracle
    { id := "t00b7", txIns := [⟨"t0", 0, "s", "pk"⟩], txOuts := [⟨"b", 7⟩] }
    [⟨"t0", 0, "pk", 7⟩] (by decide) (by decide)

/-- C4 (counterexample): an input accepted by `validateTxIn` whose
signature does not verify over the hex-decoded bytes of the id.  The
oracle's verifier accepts exactly the UTF-8 bytes of "00"; `validateTxIn`
accepts the input, while verification over `hexDecode "00"` fails, and the
two byte sequences differ. -/
theorem txIn_message_not_hex_decoded_counterexample :
    validateTxIn asciiVerifyOracle ⟨"t", 0, "sig", "pk"⟩
      { id := "00", txIns := [⟨"t", 0, "sig", "pk"⟩], txOuts := [⟨"a", 5⟩] }
      [⟨"t", 0, "pk", 5⟩] = Except.ok true ∧
    asciiVerifyOracle.edVerifyBytes (hexDecode "00") "pk" "sig" = false ∧
    utf8Bytes "00" ≠ hexDecode "00" := by decide

/-- C4 (amended): the message bytes are the UTF-8 (ASCII) bytes of `tx.id`,
not its hex decoding — every input accepted by `validateTxIn` (result
`Except.ok true`) verified over `utf8Bytes tx.id`, and whenever `signTxIn`
returns a signature it is over exactly `utf8Bytes tx.id`. -/
theorem txIn_message_is_utf8_of_id (C : CryptoOracle) (txIn : TxIn) (tx : Transaction)
    (u : List UnspentTxOut) (txInIndex : Nat) (privateKey sig : String) :
    (validateTxIn C txIn tx u = Except.ok true →
      C.edVerifyBytes (utf8Bytes tx.id) txIn.publicKey txIn.signature = true) ∧
    (signTxIn C tx txInIndex privateKey u = Except.ok sig →
      sig = C.edSignBytes (utf8Bytes tx.id) privateKey) := by
  constructor
  · intro h
    unfold validateTxIn at h
    cases hf : u.find? (fun x => x.txOutId == txIn.txOutId) with
    | none => rw [hf] at h; exact absurd h (by simp)
    | some r =>
      rw [hf] at h
      dsimp only at h
      by_cases ha : (C.hashHex txIn.publicKey != r.address) = true
      · rw [if_pos ha] at h; exact absurd h (by simp)
      · rw [if_neg ha] at h
        cases hp : C.createPublicKey txIn.publicKey with
        | error e => rw [hp] at h; exact absurd h (by simp [Bind.bind, Except.bind])
        | ok u' =>
          rw [hp] at h
          simp only [Bind.bind, Except.bind] at h
          exact Except.ok.inj h
  · intro h
    unfold signTxIn at h
    cases hidx : tx.txIns[txInIndex]? with
    | none => rw [hidx] at h; exact absurd h (by simp)
    | some txIn' =>
      rw [hidx] at h
      dsimp only at h
      cases hfu : findUnspentTxOut txIn'.txOutId txIn'.txOutIndex u with
      | none => rw [hfu] at h; exact absurd h (by simp)
      | some ru =>
        rw [hfu] at h
        dsimp only at h
        by_cases ha : (C.hashHex txIn'.publicKey != ru.address) = true
        · rw [if_pos ha] at h; exact absurd h (by simp)
        · rw [if_neg ha] at h
          cases hp : C.createPrivateKey privateKey with
          | error e => rw [hp] at h; exact absurd h (by simp [Bind.bind, Except.bind])
          | ok u' =>
            rw [hp] at h
            simp only [Bind.bind, Except.bind] at h
            exact (Except.ok.inj h).symm

/-- C4 (witness): concrete instantiations discharging both implications of
`txIn_message_is_utf8_of_id`. -/
theorem txIn_message_is_utf8_of_id_witness :
    asciiVerifyOracle.edVerifyBytes (utf8Bytes "00") "pk" "sig" = true ∧
    ("" : String) = asciiVerifyOracle.edSignBytes (utf8Bytes "00") "key" :=
  ⟨(txIn_message_is_utf8_of_id asciiVerifyOracle ⟨"t", 0, "sig", "pk"⟩
      { id := "00", txIns := [⟨"t", 0, "sig", "pk"⟩], txOuts := [⟨"a", 5⟩] }
      [⟨"t", 0, "pk", 5⟩] 0 "key" "").1 (by decide),
   (txIn_message_is_utf8_of_id asciiVerifyOracle ⟨"t", 0, "sig", "pk"⟩
      { id := "00", txIns := [⟨"t", 0, "sig", "pk"⟩], txOuts := [⟨"a", 5⟩] }
      [⟨"t", 0, "pk", 5⟩] 0 "key" "").2 (by decide)⟩

/-- C5: `syncFromPeer` never replaces the node's canonical chain and UTXO
state, for any received chain whatsoever — so in particular it does not
replace them when the remote cumulative difficulty strictly exceeds the
local one.  A chain passing `validateChain` starts with the hardcoded
genesis block, whose empty transaction list makes the replay return the
invalid sentinel at index 0; an invalid chain takes the exception path.
(The length-not-difficulty comparison noted by the source's FIXME is
therefore unreachable as an adoption criterion.) -/
theorem syncFromPeer_never_adopts (C : CryptoOracle) (now difficulty : Int)
    (s : NodeState) (remote : List Block) :
    syncFromPeer C now difficulty s remote = s :=
  syncFromPeer_eq_self C now difficulty s remote

/-- C6 (counterexample): block acceptance only evicts pool transactions
whose id appears in the block.  Accepting `doubleSpendBlock` (whose
`blockSpendTx` consumes the same UTXO as the pooled `poolSpendTx` under a
different id) leaves `poolSpendTx` in the mempool even though it no longer
validates against the new UTXO set — while it did validate before. -/
theorem mempool_invalid_after_block_acceptance_counterexample :
    (handleReceivedBlock idOracle 0 2 spendState doubleSpendBlock).transactionPool = [poolSpendTx] ∧
    validateTransaction idOracle poolSpendTx
      (handleReceivedBlock idOracle 0 2 spendState doubleSpendBlock).unspentTxOuts = Except.ok false ∧
    validateTransaction idOracle poolSpendTx spendState.unspentTxOuts = Except.ok true := by decide

/-- C6 (amended): the mempool invariant is preserved by transaction
submission — when `addToTransactionPool` accepts a transaction into a pool
satisfying the invariant, the resulting pool again satisfies it.  (Block
acceptance does not preserve it, per the counterexample.) -/
theorem addToTransactionPool_preserves_poolInvariant (C : CryptoOracle) (s : NodeState)
    (tx : Transaction) (s' : NodeState)
    (hinv : poolInvariant C s)
    (h : addToTransactionPool C s tx = Except.ok (s', true)) :
    poolInvariant C s' := by
  unfold addToTransactionPool at h
  cases hv : validateTransaction C tx s.unspentTxOuts with
  | error e => rw [hv] at h; exact absurd h (by simp [Bind.bind, Except.bind])
  | ok v =>
    rw [hv] at h
    simp only [Bind.bind, Except.bind] at h
    cases v with
    | false => simp at h
    | true =>
      by_cases hdup : ((s.transactionPool.find? (fun t => t.id == tx.id)).isSome) = true
      · rw [if_pos hdup] at h; simp at h
      · rw [if_neg hdup] at h
        by_cases hconf : (tx.txIns.any (fun txIn =>
            (s.transactionPool.flatMap (fun poolTx => poolTx.txIns.map (fun i => utxoKey i.txOutId i.txOutIndex))).contains
              (utxoKey txIn.txOutId txIn.txOutIndex))) = true
        · rw [if_pos hconf] at h; simp at h
        · rw [if_neg hconf] at h
          have hs : s' = { s with transactionPool := s.transactionPool ++ [tx] } := by
            have := congrArg Prod.fst (Except.ok.inj h)
            exact this.symm
          subst hs
          constructor
          · intro t ht
            rcases List.mem_append.mp ht with h1 | h1
            · exact hinv.1 t h1
            · rw [List.mem_singleton.mp h1]
              exact hv
          · refine List.pairwise_append.mpr ⟨hinv.2, List.pairwise_singleton _ _, ?_⟩
            intro a ha b hb
            rw [List.mem_singleton.mp hb]
            intro i hi j hj hkey
            have hmem : utxoKey i.txOutId i.txOutIndex ∈
                s.transactionPool.flatMap (fun poolTx => poolTx.txIns.map (fun i => utxoKey i.txOutId i.txOutIndex)) :=
              List.mem_flatMap.mpr ⟨a, ha, List.mem_map.mpr ⟨i, hi, rfl⟩⟩
            have : tx.txIns.any (fun txIn =>
                (s.transactionPool.flatMap (fun poolTx => poolTx.txIns.map (fun i => utxoKey i.txOutId i.txOutIndex))).contains
                  (utxoKey txIn.txOutId txIn.txOutIndex)) = true := by
              refine List.any_eq_true.mpr ⟨j, hj, ?_⟩
              rw [← hkey]
              exact List.elem_eq_true_of_mem hmem
            exact hconf this

/-- C6 (witness): submitting a valid transaction to an empty pool yields a
pool satisfying the invariant. -/
theorem addToTransactionPool_preserves_poolInvariant_witness :
    poolInvariant idOracle
      { chain := [], unspentTxOuts := [⟨"t0", 0, "pk", 7⟩],
        transactionPool := [{ id := "t00b7", txIns := [⟨"t0", 0, "s", "pk"⟩], txOuts := [⟨"b", 7⟩] }] } :=
  addToTransactionPool_preserves_poolInvariant idOracle
    { chain := [], unspentTxOuts := [⟨"t0", 0, "pk", 7⟩], transactionPool := [] }
    { id := "t00b7", txIns := [⟨"t0", 0, "s", "pk"⟩], txOuts := [⟨"b", 7⟩] }
    _
    ⟨fun t ht => absurd ht (List.not_mem_nil t), List.Pairwise.nil⟩
    (by decide)

/-- C7 (counterexample): the balance endpoint does not apply the
mempool-consumed filter of the unspent endpoint.  With the address's only
UTXO consumed by a pool transaction, `/unspent` returns nothing while
`/balance` still reports 100. -/
theorem balance_ignores_mempool_counterexample :
    unspentForAddress pendingPoolState "A" = [] ∧
    balanceForAddress pendingPoolState "A" = 100 ∧
    balanceForAddress pendingPoolState "A"
      ≠ (unspentForAddress pendingPoolState "A").foldl (fun a b => a + b.amount) 0 := by decide

/-- C7 (amended): the balance equals the sum over the unspent endpoint's
response only when no mempool transaction consumes any UTXO owned by the
address; in general the balance sums all of the address's UTXOs without
the mempool filter. -/
theorem balance_matches_unspent_without_mempool_use (s : NodeState) (address : String)
    (h : ∀ u ∈ s.unspentTxOuts, u.address = address →
        utxoKey u.txOutId u.txOutIndex ∉
          s.transactionPool.flatMap (fun t => t.txIns.map (fun i => utxoKey i.txOutId i.txOutIndex))) :
    balanceForAddress s address
      = (unspentForAddress s address).foldl (fun a b => a + b.amount) 0 := by
  unfold balanceForAddress unspentForAddress
  have : s.unspentTxOuts.filter (fun u => u.address == address)
      = s.unspentTxOuts.filter (fun u =>
          u.address == address &&
          !((s.transactionPool.flatMap (fun poolTx => poolTx.txIns.map (fun i => utxoKey i.txOutId i.txOutIndex))).contains
              (utxoKey u.txOutId u.txOutIndex))) := by
    apply List.filter_congr
    intro u hu
    by_cases ha : u.address = address
    · have hnot := h u hu ha
      simp [ha, hnot]
    · simp [ha]
  rw [this]

/-- C7 (witness): with an empty mempool, balance and unspent-sum agree on a
concrete state. -/
theorem balance_matches_unspent_without_mempool_use_witness :
    balanceForAddress { chain := [], unspentTxOuts := [⟨"t", 0, "A", 100⟩], transactionPool := [] } "A"
      = (unspentForAddress { chain := [], unspentTxOuts := [⟨"t", 0, "A", 100⟩], transactionPool := [] } "A").foldl
          (fun a b => a + b.amount) 0 :=
  balance_matches_unspent_without_mempool_use
    { chain := [], unspentTxOuts := [⟨"t", 0, "A", 100⟩], transactionPool := [] } "A" (by decide)

/-- C8 (counterexample): `validateCoinbaseTx` accepts a transaction whose
single input has non-empty `txOutId`, signature and public key — the claim
requires acceptance only when `prevTxId` is the empty string and signature
and public key are empty. -/
theorem validateCoinbaseTx_ignores_prevTxId_counterexample :
    validateCoinbaseTx idOracle nonstandardCoinbase 5 = true ∧
    nonstandardCoinbase.txIns.map TxIn.txOutId = ["x"] ∧
    nonstandardCoinbase.txIns.map TxIn.signature = ["sg"] ∧
    nonstandardCoinbase.txIns.map TxIn.publicKey = ["pk"] ∧
    ("x" : String) ≠ "" ∧ ("sg" : String) ≠ "" ∧ ("pk" : String) ≠ "" := by decide

/-- C8 (amended): `validateCoinbaseTx tx blockHeight` returns true iff the
recomputed id matches, there is exactly one input whose `txOutIndex` equals
the block height, and exactly one output whose amount is the coinbase
reward — the input's `txOutId`, `signature` and `publicKey` are not
checked. -/
theorem validateCoinbaseTx_characterization (C : CryptoOracle) (tx : Transaction) (blockIndex : Int) :
    validateCoinbaseTx C tx blockIndex = true ↔
      (generateTransactionId C tx.txIns tx.txOuts = tx.id ∧
       tx.txIns.length = 1 ∧
       tx.txIns.head?.map TxIn.txOutIndex = some blockIndex ∧
       tx.txOuts.length = 1 ∧
       tx.txOuts.head?.map TxOut.amount = some COINBASE_AMOUNT) := by
  unfold validateCoinbaseTx
  repeat' split
  all_goals simp_all [bne_iff_ne]

/-- C9 (counterexample): delivering two consecutive children before their
missing parent does not converge to the same tip as in-order delivery.
`linkedB1` extends genesis and `linkedB2`, `linkedB3` are its consecutive
descendants (the first three conjuncts record the parent links).  Delivered
as B2, B3, B1, the out-of-order children are answered with a gap response
and never stored, so the node ends at tip `linkedB1`; delivered in order it
ends at tip `linkedB3`. -/
theorem ingest_order_sensitivity_counterexample :
    linkedB1.prevHash = (createGenesisBlock idOracle).hash ∧
    linkedB2.prevHash = linkedB1.hash ∧
    linkedB3.prevHash = linkedB2.hash ∧
    (ingestAll idOracle 0 2 genesisOnlyState [linkedB2, linkedB3, linkedB1]).chain.getLast?
      = some linkedB1 ∧
    (ingestAll idOracle 0 2 genesisOnlyState [linkedB1, linkedB2, linkedB3]).chain.getLast?
      = some linkedB3 ∧
    linkedB1 ≠ linkedB3 := by decide

/-- C9 (amended): a block whose height exceeds the latest height by more
than one is dropped by the block-push handler without any state change
(there is no orphan index; the triggered background sync adopts nothing),
which is why ingest order across a missing parent matters. -/
theorem blocksNewStep_drops_gap_block (C : CryptoOracle) (now difficulty : Int)
    (s : NodeState) (b latest : Block)
    (hl : s.chain.getLast? = some latest)
    (h1 : latest.height < b.height) (h2 : b.height ≠ latest.height + 1) :
    blocksNewStep C now difficulty s b = s := by
  unfold blocksNewStep
  rw [hl]
  dsimp only
  rw [if_neg (not_le.mpr h1)]
  rw [if_pos (by simpa [bne_iff_ne] using h2)]

/-- C9 (witness): a height-5 block delivered to a genesis-only node leaves
the state unchanged. -/
theorem blocksNewStep_drops_gap_block_witness :
    blocksNewStep idOracle 0 2 genesisOnlyState (childBlock 5 "h5") = genesisOnlyState :=
  blocksNewStep_drops_gap_block idOracle 0 2 genesisOnlyState (childBlock 5 "h5")
    (createGenesisBlock idOracle) (by decide) (by decide) (by decide)

/-- C10: `validateTxIn` resolves the referenced UTXO by `txOutId` alone —
it accepts exactly when the first UTXO with the input's `txOutId` exists,
the owner-address check passes, the public key parses, and the signature
verifies (the iff), and it can therefore accept an input whose
`(txOutId, txOutIndex)` pair matches no UTXO (the existential). -/
theorem validateTxIn_resolves_by_txOutId_only :
    (∀ (C : CryptoOracle) (txIn : TxIn) (tx : Transaction) (u : List UnspentTxOut),
      validateTxIn C txIn tx u = Except.ok true ↔
        ∃ r, u.find? (fun x => x.txOutId == txIn.txOutId) = some r ∧
          C.hashHex txIn.publicKey = r.address ∧
          C.createPublicKey txIn.publicKey = Except.ok () ∧
          C.edVerifyBytes (utf8Bytes tx.id) txIn.publicKey txIn.signature = true) ∧
    (∃ (C : CryptoOracle) (txIn : TxIn) (tx : Transaction) (u : List UnspentTxOut),
      findUnspentTxOut txIn.txOutId txIn.txOutIndex u = none ∧
      validateTxIn C txIn tx u = Except.ok true) := by
  constructor
  · intro C txIn tx u
    unfold validateTxIn
    cases hf : u.find? (fun x => x.txOutId == txIn.txOutId) with
    | none => simp
    | some r =>
      dsimp only
      by_cases ha : (C.hashHex txIn.publicKey != r.address) = true
      · rw [if_pos ha]
        simp only [bne_iff_ne, ne_eq] at ha
        simp [ha]
      · rw [if_neg ha]
        simp only [bne_iff_ne, ne_eq, not_not] at ha
        cases hp : C.createPublicKey txIn.publicKey with
        | error e => simp [Bind.bind, Except.bind, ha, hp]
        | ok u' =>
          cases u'
          simp [Bind.bind, Except.bind, ha, hp]
  · exact ⟨idOracle, ⟨"t", 1, "s", "pk"⟩, ⟨"id0", [], []⟩, [⟨"t", 0, "pk", 5⟩],
      by decide, by decide⟩

end Cebularz
